import Mathlib

/-!
Verification development for the website-security-scanner repository.

The embedding models the discovery-and-verification pipeline:
the URL/domain normalizer (`extractDomain` in check-blacklist.js and in the
dead-domain scanner), the reputation-oracle classification (`checkAll` in
check-blacklist.js), the dead-domain liveness check, the sitemap resolver,
the crawl page filter and page-visit loop (download-assets.js), and the
report aggregation (`generateReport` in the report sender).

Strings are modelled as lists of characters (`Str`), so that string
operations reduce structurally in proofs.  Asynchronous I/O (DNS answers,
fetched sitemap documents, page navigation outcomes) is modelled by
explicit environment functions passed to each operation; JavaScript
exceptions are modelled by `Option` results.
-/

/-- Strings as lists of characters. -/
abbrev Str := List Char

/-- Convert a Lean string literal to the character-list representation. -/
def str (s : String) : Str := s.data

/-- Core of the startsWith test, recursing on the pattern (first
argument) so that an empty or mismatching pattern decides without
inspecting the rest of the subject. -/
def strStartsWithCore : Str → Str → Bool
  | [], _ => true
  | _ :: _, [] => false
  | p :: ps, c :: cs => c == p && strStartsWithCore ps cs

/-- Models JavaScript `s.startsWith(pat)`. -/
def strStartsWith (s pat : Str) : Bool := strStartsWithCore pat s

/-- Models JavaScript `s.includes(c)` for a single character. -/
def strContains : Str → Char → Bool
  | [], _ => false
  | c :: cs, a => c == a || strContains cs a

/-- ASCII lowercase of a whole string (WHATWG hosts are lowercased). -/
def toLowerStr (s : Str) : Str := s.map Char.toLower

/-- ASCII alphabetic test for URL scheme characters. -/
def isAsciiAlpha (c : Char) : Bool :=
  (('a' ≤ c) && (c ≤ 'z')) || (('A' ≤ c) && (c ≤ 'Z'))

/-- Characters allowed inside a URL scheme after the first one. -/
def isSchemeChar (c : Char) : Bool :=
  isAsciiAlpha c || c.isDigit || c == '+' || c == '-' || c == '.'

/-- Split a string at the first colon: `some (before, after)` or `none`
when no colon occurs. -/
def takeUntilColon : Str → Option (Str × Str)
  | [] => none
  | c :: cs =>
    if c == ':' then some ([], cs)
    else (takeUntilColon cs).map (fun p => (c :: p.1, p.2))

/-- A valid URL scheme: nonempty, starts with an ASCII letter, continues
with scheme characters. -/
def validScheme (s : Str) : Bool :=
  match s with
  | [] => false
  | c :: cs => isAsciiAlpha c && cs.all isSchemeChar

/-- Split off the scheme of a URL string, or fail (models the WHATWG
"missing scheme" parse error, on which `new URL(...)` throws). -/
def splitScheme (s : Str) : Option (Str × Str) :=
  match takeUntilColon s with
  | none => none
  | some (sch, rest) =>
    if validScheme sch then some (toLowerStr sch, rest) else none

/-- Characters that terminate the authority component. -/
def authorityEnd (c : Char) : Bool :=
  c == '/' || c == '?' || c == '#' || c == '\\'

/-- The authority substring: everything up to the first `/`, `?`, `#`
or `\`. -/
def takeAuthority (s : Str) : Str := s.takeWhile (fun c => !authorityEnd c)

/-- Drop a leading `userinfo@` part: keep the segment after the last `@`
of the authority. -/
def afterLastAt (s : Str) : Str :=
  s.foldl (fun acc c => if c == '@' then [] else acc ++ [c]) []

/-- Drop a trailing `:port` part. -/
def stripPort (s : Str) : Str := s.takeWhile (fun c => c != ':')

/-- Host parsing for the special schemes http/https: leading slashes (and
backslashes) collapse, the authority runs to the first terminator, and an
empty host is a parse failure (`new URL("https://")` throws). -/
def parseHostSpecial (s : Str) : Option Str :=
  let s1 := s.dropWhile (fun c => c == '/' || c == '\\')
  let host := stripPort (afterLastAt (takeAuthority s1))
  if host.isEmpty then none else some (toLowerStr host)

/-- Models Node's WHATWG `new url.URL(s).hostname` on the input fragment
this repository reaches: http/https URLs (possibly with userinfo, port,
path, query, fragment), other schemes with an explicit `//` authority, and
opaque-path URLs such as `mailto:` whose hostname is empty.  Percent
decoding, punycode, IPv6 bracket hosts and forbidden-host-character
validation are outside the exercised fragment and are not modelled.
`none` models the constructor throwing `Invalid URL`. -/
def urlHostname (s : Str) : Option Str :=
  match splitScheme s with
  | none => none
  | some (scheme, rest) =>
    if scheme == str "http" || scheme == str "https" then
      parseHostSpecial rest
    else if strStartsWith rest (str "//") then
      some (toLowerStr (stripPort (afterLastAt (takeAuthority (rest.drop 2)))))
    else
      some []

/-- Models Node's `new url.URL(s).pathname` for http/https URLs: the part
after the authority up to the first `?` or `#`, defaulting to `/`. -/
def urlPathname (s : Str) : Option Str :=
  match splitScheme s with
  | none => none
  | some (scheme, rest) =>
    if scheme == str "http" || scheme == str "https" then
      let s1 := rest.dropWhile (fun c => c == '/' || c == '\\')
      if (stripPort (afterLastAt (takeAuthority s1))).isEmpty then none
      else
        let tail := s1.dropWhile (fun c => !authorityEnd c)
        let p := tail.takeWhile (fun c => c != '?' && c != '#')
        some (if p.isEmpty then [ '/' ] else p)
    else none

/-- Models Node's `path.basename`: trailing slashes are ignored, then the
segment after the last remaining slash is returned. -/
def basenameOf (p : Str) : Str :=
  let q := (p.reverse.dropWhile (fun c => c == '/')).reverse
  q.foldl (fun acc c => if c == '/' then [] else acc ++ [c]) []

/-!
## check-blacklist.js: `extractDomain`

```js
const extractDomain = (inputUrl) => {
    try {
        if (!inputUrl.startsWith('http://') && !inputUrl.startsWith('https://')) {
            if (inputUrl.includes('/')) {
                if (inputUrl.startsWith('//')) {
                    return new url.URL('https:' + inputUrl).hostname;
                }
                return new url.URL('https://' + inputUrl).hostname;
            }
            return inputUrl;
        }
        return new url.URL(inputUrl).hostname;
    } catch (e) {
        return input;   // the global CLI argument, not an Invalid marker
    }
};
```
-/

/-- The body of check-blacklist.js `extractDomain` up to the `catch`:
`none` models the `url.URL` constructor throwing inside the `try`. -/
def extractDomain_cbAux (inp : Str) : Option Str :=
  if !(strStartsWith inp (str "http://") || strStartsWith inp (str "https://")) then
    if strContains inp '/' then
      if strStartsWith inp (str "//") then urlHostname (str "https:" ++ inp)
      else urlHostname (str "https://" ++ inp)
    else some inp
  else urlHostname inp

/-- check-blacklist.js `extractDomain`: on any parse throw, the `catch`
returns the global `input` (the raw CLI argument `glob`), never an
Invalid marker. -/
def extractDomain_cb (glob inp : Str) : Str :=
  (extractDomain_cbAux inp).getD glob

/-!
## Dead-domain scanner: `extractDomain`

```js
const extractDomain = (urlString) => {
    try {
        if (urlString.startsWith('//')) {
            urlString = 'https:' + urlString;
        }
        const parsed = new url.URL(urlString);
        return parsed.hostname;
    } catch (e) {
        return null; // Invalid URL
    }
};
```
-/

/-- The dead-domain scanner's `extractDomain`: protocol-relative inputs are
coerced to https, and a parse throw yields `none` (the `null` Invalid
result). -/
def extractDomain_dd (u : Str) : Option Str :=
  urlHostname (if strStartsWith u (str "//") then str "https:" ++ u else u)


/-!
## check-blacklist.js: oracle framework (`checkAll`)

A DNS answer for a blocklist query: resolution succeeds with a list of
response addresses, fails with ENOTFOUND ("not listed"), or fails with any
other resolver error (rethrown by `checkDNS` and caught per oracle).
-/

/-- Outcome of one `dns.resolve` call, as `checkDNS` distinguishes it. -/
inductive DnsAnswer
  | resolved (addresses : List Str)
  | notFound
  | otherError (code : Str)
deriving DecidableEq

/-- One blocklist oracle from `BLACKLISTS` / `IP_BLACKLISTS`. -/
structure OracleSpec where
  name : Str
  suffix : Str
  ignoreCodes : List Str
deriving DecidableEq

/-- The domain-class blocklists configured in check-blacklist.js. -/
def BLACKLISTS : List OracleSpec :=
  [ { name := str "Spamhaus DBL", suffix := str "dbl.spamhaus.org",
      ignoreCodes := [str "127.255.255.254", str "127.255.255.255"] },
    { name := str "SURBL", suffix := str "multi.surbl.org", ignoreCodes := [] },
    { name := str "URIBL", suffix := str "multi.uribl.com",
      ignoreCodes := [str "127.0.0.1"] } ]

/-- The IP-class blocklists configured in check-blacklist.js. -/
def IP_BLACKLISTS : List OracleSpec :=
  [ { name := str "Spamhaus ZEN", suffix := str "zen.spamhaus.org",
      ignoreCodes := [str "127.255.255.254", str "127.255.255.255"] } ]

/-- What one loop iteration of `checkAll` observes for one oracle. -/
structure OracleOutcome where
  listed : Bool
  codes : List Str
  warned : Bool
  errored : Bool
deriving DecidableEq

/-- One iteration of the `checkAll` loops (identical for the domain-class
loop and the IP-class loop): on a resolved answer the addresses are
partitioned against `ignoreCodes`; a nonempty ignored part emits a
warning, and the oracle's verdict is listed exactly when the remaining
(real) part is nonempty.  ENOTFOUND is clean; other errors are logged as
an oracle-level error. -/
def processOracle (ignoreCodes : List Str) (ans : DnsAnswer) : OracleOutcome :=
  match ans with
  | .notFound => { listed := false, codes := [], warned := false, errored := false }
  | .otherError _ => { listed := false, codes := [], warned := false, errored := true }
  | .resolved addrs =>
    let ignored := addrs.filter (fun a => decide (a ∈ ignoreCodes))
    let real := addrs.filter (fun a => !decide (a ∈ ignoreCodes))
    { listed := !real.isEmpty, codes := real, warned := !ignored.isEmpty,
      errored := false }

/-- Models `reverseIP`: split on dots, reverse, rejoin. -/
def splitDots : Str → List Str
  | [] => [[]]
  | c :: cs =>
    match splitDots cs with
    | [] => [[]]
    | seg :: rest => if c == '.' then [] :: seg :: rest else (c :: seg) :: rest

/-- `reverseIP(ip)` from check-blacklist.js. -/
def reverseIP (ip : Str) : Str := List.intercalate (str ".") (splitDots ip).reverse

/-- The overall `listed` flag computed by `checkAll`, given the DNS answer
for every blocklist query and the (optional) first A record of the domain.
IP-class oracles run only when IP resolution succeeded with a nonempty
list; the domain is listed overall iff any oracle saw a real listing. -/
def checkAllListed (env : Str → DnsAnswer) (ips : Option (List Str)) (domain : Str) : Bool :=
  let domListed := BLACKLISTS.any (fun l =>
    (processOracle l.ignoreCodes (env (domain ++ '.' :: l.suffix))).listed)
  let ipListed :=
    match ips with
    | some (ip :: _) => IP_BLACKLISTS.any (fun l =>
        (processOracle l.ignoreCodes (env (reverseIP ip ++ '.' :: l.suffix))).listed)
    | _ => false
  domListed || ipListed


/-!
## Dead-domain scanner: source aggregation and liveness check

```js
const addFinding = (foundUrl, source) => {
    const domain = extractDomain(foundUrl);
    if (!domain) return;
    if (!domainSources.has(domain)) {
        domainSources.set(domain, new Set());
    }
    const sources = domainSources.get(domain);
    sources.add(source);
};
```
-/

/-- JavaScript `Set.add`: append only when absent (insertion order kept). -/
def insertNew (s : Str) (l : List Str) : List Str :=
  if s ∈ l then l else l ++ [s]

/-- The `domainSources` map as an insertion-ordered association list. -/
abbrev DomainSources := List (Str × List Str)

/-- `domainSources.has(domain)`. -/
def hasKey (m : DomainSources) (d : Str) : Bool :=
  m.any (fun e => decide (e.1 = d))

/-- `addFinding(foundUrl, source)`: extract the domain (dropping it when
extraction yields `null` or an empty hostname, both falsy) and add the
source to that domain's source set. -/
def addFinding (foundUrl source : Str) (m : DomainSources) : DomainSources :=
  match extractDomain_dd foundUrl with
  | none => m
  | some d =>
    if d.isEmpty then m
    else if hasKey m d then
      m.map (fun e => if e.1 = d then (e.1, insertNew source e.2) else e)
    else m ++ [(d, [source])]

/-- Process a list of (url, source-description) findings from the empty
map, as the scanner does over found_urls.json and the script texts. -/
def processFindings (findings : List (Str × Str)) : DomainSources :=
  findings.foldl (fun m f => addFinding f.1 f.2 m) []

/-- One entry of `deadDomains` in dead-domains.json. -/
structure DeadDomainEntry where
  domain : Str
  error : Str
  sources : List Str
deriving DecidableEq

/-- The dead-domain check: for each checked domain, `dns.resolve` either
succeeds (`none`) or fails with an error code (`some code`); a finding is
recorded exactly on the ENOTFOUND error class.  `resolveErr` is the
resolver environment, `srcs` the per-domain deduplicated source list. -/
def checkLiveness (resolveErr : Str → Option Str) (srcs : Str → List Str)
    (domains : List Str) : List DeadDomainEntry :=
  domains.filterMap (fun d =>
    match resolveErr d with
    | some e => if e = str "ENOTFOUND" then some ⟨d, e, srcs d⟩ else none
    | none => none)

/-- Models JavaScript `s.includes(sub)` (substring containment). -/
def strIncludes (sub : Str) : Str → Bool
  | [] => sub.isEmpty
  | c :: cs => strStartsWith (c :: cs) sub || strIncludes sub cs

/-- The `domainsToCheck` filter: drop localhost-like hosts and hosts
without a dot. -/
def domainsToCheckFilter (ds : List Str) : List Str :=
  ds.filter (fun d =>
    !(strIncludes (str "localhost") d) &&
    !(strIncludes (str "127.0.0.1") d) &&
    strContains d '.')


/-!
## download-assets.js: page prefix filtering

```js
pagesToVisit = pagesToVisit.filter(url => {
    const urlPath = new URL(url).pathname;
    const matchesSkip = skipPrefixes.some(prefix => urlPath.startsWith(prefix));
    const matchesInclude = includePrefixes.some(prefix => urlPath.startsWith(prefix));
    const shouldSkip = matchesSkip && !matchesInclude;
    return !shouldSkip;
});
```
run only under `if (skipPrefixes.length > 0)`.
-/

/-- `list.some(p => path.startsWith(p))`. -/
def matchesAnyOf (pats : List Str) (p : Str) : Bool :=
  pats.any (fun pre => strStartsWith p pre)

/-- The per-page skip decision of the crawl filter. -/
def shouldSkipPage (skips incls : List Str) (urlPath : Str) : Bool :=
  matchesAnyOf skips urlPath && !(matchesAnyOf incls urlPath)

/-- The `pagesToVisit` filter step: applied only when at least one skip
marker is configured; `pathOf` models `new URL(url).pathname`. -/
def filterPages (pathOf : Str → Str) (skips incls : List Str)
    (pages : List Str) : List Str :=
  if skips.isEmpty then pages
  else pages.filter (fun u => !(shouldSkipPage skips incls (pathOf u)))

/-!
## download-assets.js: sitemap resolution (`parseSitemap`)

The fetch plus XML parse of one sitemap URL is modelled by an environment
function: it fails (any fetch or parse exception, caught and turned into
`[]`), yields a sitemap index with child locations, yields a url-set with
leaf locations, or parses to a document with neither shape.  The JS
recursion has no depth bound; the model adds explicit fuel, and each
property is proved at every positive fuel value.
-/

/-- Fetch-and-parse outcome of one sitemap URL. -/
inductive SitemapResult
  | failed
  | indexDoc (children : List Str)
  | urlsetDoc (locs : List Str)
  | emptyDoc
deriving DecidableEq

/-- `parseSitemap`: a failed node yields `[]`; an index node concatenates
its children's results in document order (`urls = urls.concat(...)`); a
url-set yields its leaf locations. -/
def parseSitemap (env : Str → SitemapResult) : Nat → Str → List Str
  | 0, _ => []
  | fuel + 1, u =>
    match env u with
    | .failed => []
    | .indexDoc children =>
      children.foldl (fun acc c => acc ++ parseSitemap env fuel c) []
    | .urlsetDoc locs => locs
    | .emptyDoc => []

/-!
## download-assets.js: script destination naming

```js
const fileName = path.basename(new URL(scriptUrl).pathname) || 'script.js';
const uniqueName = `${Date.now()}-${Math.floor(Math.random() * 1000)}-${fileName}`;
```
-/

/-- Decimal digit characters (used with arguments below 10 only). -/
def digitChar : Nat → Char
  | 0 => '0' | 1 => '1' | 2 => '2' | 3 => '3' | 4 => '4'
  | 5 => '5' | 6 => '6' | 7 => '7' | 8 => '8' | _ => '9'

/-- Fuel-indexed decimal representation; with fuel above `n` this is the
usual most-significant-first digit string. -/
def natDigitsAux : Nat → Nat → Str
  | 0, _ => []
  | fuel + 1, n =>
    if n < 10 then [digitChar n]
    else natDigitsAux fuel (n / 10) ++ [digitChar (n % 10)]

/-- Decimal representation of a natural number, as JavaScript template
interpolation `${n}` renders it. -/
def natDigits (n : Nat) : Str := natDigitsAux (n + 1) n

/-- Numeric value of a decimal digit character. -/
def digitVal (c : Char) : Nat := c.toNat - 48

/-- Read a digit string back as a number (left inverse of `natDigits`,
used to prove the representation injective). -/
def undigits (l : Str) : Nat := l.foldl (fun a c => a * 10 + digitVal c) 0

/-- The basename chosen for a downloaded script: the basename of the URL
pathname, with the falsy-empty fallback `script.js`; `none` models the URL
constructor throwing (caught per script). -/
def scriptFileName (scriptUrl : Str) : Option Str :=
  (urlPathname scriptUrl).map (fun p =>
    let b := basenameOf p
    if b.isEmpty then str "script.js" else b)

/-- The generated destination filename, from the millisecond timestamp
`Date.now()`, the draw `Math.floor(Math.random() * 1000)` and the file
basename. -/
def uniqueName (now rand : Nat) (fileName : Str) : Str :=
  natDigits now ++ '-' :: (natDigits rand ++ '-' :: fileName)


/-!
## download-assets.js: page-visit loop and scan metadata

```js
for (const pageUrl of pagesToVisit) {
    if (seenPages.has(pageUrl)) continue;
    seenPages.add(pageUrl);
    try { await page.goto(pageUrl, ...); ...extract, download... }
    catch (err) { ...log and continue... }
}
const metadata = {
    scannedUrlCount: seenPages.size,
    downloadedScriptCount: downloadedScriptsCount
};
```
Navigation outcome and the number of scripts downloaded from a
successfully rendered page are supplied by environment functions.
-/

/-- Mutable state of the crawl loop. -/
structure CrawlState where
  seenPages : List Str
  foundPages : List Str
  downloadedCount : Nat
deriving DecidableEq

/-- One iteration of the page loop: already-seen pages are skipped; an
attempted page is recorded as seen before navigation; only on navigation
success is the page's extraction recorded and its scripts downloaded. -/
def visitPage (navOk : Str → Bool) (scriptsOn : Str → Nat)
    (st : CrawlState) (u : Str) : CrawlState :=
  if u ∈ st.seenPages then st
  else
    let st1 : CrawlState := { st with seenPages := st.seenPages ++ [u] }
    if navOk u then
      { st1 with foundPages := st1.foundPages ++ [u],
                 downloadedCount := st1.downloadedCount + scriptsOn u }
    else st1

/-- The whole page loop from the empty state. -/
def runCrawl (navOk : Str → Bool) (scriptsOn : Str → Nat)
    (pages : List Str) : CrawlState :=
  pages.foldl (visitPage navOk scriptsOn) ⟨[], [], 0⟩

/-- scan-metadata.json. -/
structure ScanMetadata where
  scannedUrlCount : Nat
  downloadedScriptCount : Nat
deriving DecidableEq

/-- The metadata persisted at the end of the crawl. -/
def crawlMetadata (navOk : Str → Bool) (scriptsOn : Str → Nat)
    (pages : List Str) : ScanMetadata :=
  { scannedUrlCount := (runCrawl navOk scriptsOn pages).seenPages.length,
    downloadedScriptCount := (runCrawl navOk scriptsOn pages).downloadedCount }

/-- First-occurrence deduplication (the set of unique page URLs in
first-visit order). -/
def dedupFirst (pages : List Str) : List Str :=
  pages.foldl (fun acc u => if u ∈ acc then acc else acc ++ [u]) []

/-!
## Report aggregation (`generateReport` in the report sender)

The counting over the persisted report files:

```js
retireData.forEach(fileOpt => {
    if (fileOpt.results && fileOpt.results.length > 0) retireIssues += fileOpt.results.length; ...});
if (match && parseInt(match[1]) > 0) clamavIssues = parseInt(match[1]);
if (data.deadDomains && data.deadDomains.length > 0) deadDomainIssues = data.deadDomains.length;
if (data.status === 'listed') blacklistIssues = 1;
const totalIssues = retireIssues + clamavIssues + deadDomainIssues + blacklistIssues;
const subject = `WebsiteSecurity Report: ${totalIssues > 0 ? "Issues Found" : "Clean"}`;
```
The safebrowsing-report.json file is never read by this function.
-/

/-- One entry of retire-report.json (each element of `results` is one
reported vulnerability). -/
structure RetireEntry where
  file : Str
  results : List Str
deriving DecidableEq

/-- The persisted report files available to `generateReport`; `none`
models an absent (or unparsable) file.  `safebrowsingStatus` is the status
field of safebrowsing-report.json, carried here to state that the
aggregation never consults it. -/
structure Reports where
  retire : Option (List RetireEntry)
  clamavInfected : Option Nat
  deadDomains : Option (List DeadDomainEntry)
  blacklistStatus : Option Str
  safebrowsingStatus : Option Str

/-- `retireIssues`. -/
def retireIssuesOf (r : Reports) : Nat :=
  match r.retire with
  | none => 0
  | some es => es.foldl (fun acc e =>
      if e.results.length > 0 then acc + e.results.length else acc) 0

/-- `clamavIssues` (the parsed `Infected files:` count, when positive). -/
def clamavIssuesOf (r : Reports) : Nat :=
  match r.clamavInfected with
  | none => 0
  | some n => if n > 0 then n else 0

/-- `deadDomainIssues`. -/
def deadDomainIssuesOf (r : Reports) : Nat :=
  match r.deadDomains with
  | none => 0
  | some ds => if ds.length > 0 then ds.length else 0

/-- `blacklistIssues`: 1 exactly on the `listed` status. -/
def blacklistIssuesOf (r : Reports) : Nat :=
  match r.blacklistStatus with
  | none => 0
  | some st => if st = str "listed" then 1 else 0

/-- `totalIssues` as `generateReport` computes it. -/
def generateReportTotal (r : Reports) : Nat :=
  retireIssuesOf r + clamavIssuesOf r + deadDomainIssuesOf r + blacklistIssuesOf r

/-- The run status label used in the report subject. -/
def generateReportLabel (r : Reports) : Str :=
  if generateReportTotal r > 0 then str "Issues Found" else str "Clean"

/-- Modelled from the spec (refinement comparison only): the total issue
count as the specification words it, "dead-domain count plus
blacklist-listed count (0 or 1) plus malicious-URL-listed count (0 or 1)
plus the externally supplied third-party scanner counts". -/
def specClaimedTotal (r : Reports) : Nat :=
  deadDomainIssuesOf r + blacklistIssuesOf r +
    (match r.safebrowsingStatus with
     | some st => if st = str "unsafe" then 1 else 0
     | none => 0) +
    retireIssuesOf r + clamavIssuesOf r

/-!
## Concrete scenario data used by witnesses and counterexamples
-/

/-- Concrete report set: everything clean except a safebrowsing `unsafe`
verdict. -/
def reportsCex : Reports :=
  { retire := some [], clamavInfected := some 0, deadDomains := some [],
    blacklistStatus := some (str "clean"),
    safebrowsingStatus := some (str "unsafe") }

/-- Concrete findings: one resource URL reported from two different pages,
with the first provenance repeated a third time. -/
def findingsCex : List (Str × Str) :=
  [ (str "https://cdn.example.com/a.js", str "Found on Page: https://p1"),
    (str "https://cdn.example.com/a.js", str "Found on Page: https://p2"),
    (str "https://cdn.example.com/a.js", str "Found on Page: https://p1") ]

/-- Concrete sitemap environment: an index whose middle child fails to
fetch, flanked by two url-set children of two URLs each. -/
def sitemapEnvCex (u : Str) : SitemapResult :=
  if u = str "https://s/root.xml" then
    SitemapResult.indexDoc [str "https://s/c1.xml", str "https://s/bad.xml", str "https://s/c2.xml"]
  else if u = str "https://s/c1.xml" then
    SitemapResult.urlsetDoc [str "https://s/p1", str "https://s/p2"]
  else if u = str "https://s/c2.xml" then
    SitemapResult.urlsetDoc [str "https://s/p3", str "https://s/p4"]
  else SitemapResult.failed

/-!
## Helper lemmas
-/

/-- Validation of the URL and naming models on concrete inputs: hostname
extraction (lowercasing, userinfo and port stripping, protocol-relative
coercion, Invalid on unparsable input, empty hostname for opaque paths),
pathname and basename extraction, IP octet reversal, the domains-to-check
filter, and decimal rendering. -/
theorem model_validation_facts :
    extractDomain_dd (str "https://Example.com/x") = some (str "example.com") ∧
    extractDomain_dd (str "//cdn.example.com/a.js") = some (str "cdn.example.com") ∧
    extractDomain_dd (str "%%") = none ∧
    extractDomain_dd (str "mailto:a@b.c") = some [] ∧
    extractDomain_cb (str "x") (str "example.com") = str "example.com" ∧
    extractDomain_cb (str "x") (str "https://user@example.com:8080/p?q") = str "example.com" ∧
    urlPathname (str "https://a.example/app.js") = some (str "/app.js") ∧
    basenameOf (str "/app.js") = str "app.js" ∧
    scriptFileName (str "https://a.example/") = some (str "script.js") ∧
    reverseIP (str "1.2.3.4") = str "4.3.2.1" ∧
    domainsToCheckFilter [str "a.example.com", str "localhost", str "internal"] =
      [str "a.example.com"] ∧
    natDigits 1700 = str "1700" ∧
    uniqueName 1700 5 (str "app.js") = str "1700-5-app.js" := by decide

/-- A filter is non-empty (as a Bool) iff some element satisfies the
predicate. -/
theorem not_isEmpty_filter_iff (p : Str → Bool) (l : List Str) :
    (!(l.filter p).isEmpty) = true ↔ ∃ a ∈ l, p a = true := by
  induction l with
  | nil => simp
  | cons a rest ih =>
    by_cases h : p a <;> simp [List.filter_cons, h, ih]

/-- Left folds that append translate to flatten-of-map. -/
theorem foldl_append_eq_flatten (f : Str → List Str) (l : List Str) :
    ∀ acc : List Str, l.foldl (fun a c => a ++ f c) acc = acc ++ (l.map f).flatten := by
  induction l with
  | nil => intro acc; simp
  | cons c rest ih => intro acc; simp [ih, List.append_assoc]

/-- The seen-pages component of the crawl fold is the first-occurrence
deduplication fold, independent of navigation outcomes. -/
theorem crawl_foldl_seenPages (navOk : Str → Bool) (scriptsOn : Str → Nat) :
    ∀ (pages : List Str) (st : CrawlState),
      (pages.foldl (visitPage navOk scriptsOn) st).seenPages =
        pages.foldl (fun acc u => if u ∈ acc then acc else acc ++ [u]) st.seenPages := by
  intro pages
  induction pages with
  | nil => intro st; rfl
  | cons u rest ih =>
    intro st
    simp only [List.foldl_cons]
    rw [ih]
    have hseen : (visitPage navOk scriptsOn st u).seenPages =
        if u ∈ st.seenPages then st.seenPages else st.seenPages ++ [u] := by
      by_cases h : u ∈ st.seenPages
      · simp [visitPage, h]
      · by_cases h2 : navOk u <;> simp [visitPage, h, h2]
    rw [hseen]

/-!
## Claim theorems
-/

/-- Claim C1: for every oracle response with resolved response codes — the
domain-class and IP-class loops of `checkAll` both classify through
`processOracle` — the target is listed on that oracle iff at least one
returned code lies outside that oracle's ignoreCodes set, and a response
consisting only of ignore codes is never listed: it yields only the
warning signal. -/
theorem claim1_oracle_listed_iff_real_code (ign addrs : List Str) :
    ((processOracle ign (DnsAnswer.resolved addrs)).listed = true ↔
      ∃ a ∈ addrs, a ∉ ign) ∧
    ((∀ a ∈ addrs, a ∈ ign) →
      (processOracle ign (DnsAnswer.resolved addrs)).listed = false ∧
      (processOracle ign (DnsAnswer.resolved addrs)).warned = !addrs.isEmpty) := by
  constructor
  · rw [show (processOracle ign (DnsAnswer.resolved addrs)).listed =
        !(addrs.filter (fun a => !decide (a ∈ ign))).isEmpty from rfl]
    rw [not_isEmpty_filter_iff]
    simp
  · intro h
    have h1 : addrs.filter (fun a => !decide (a ∈ ign)) = [] := by
      rw [List.filter_eq_nil_iff]
      intro a ha
      simp [h a ha]
    have h2 : addrs.filter (fun a => decide (a ∈ ign)) = addrs := by
      rw [List.filter_eq_self]
      intro a ha
      simp [h a ha]
    constructor
    · rw [show (processOracle ign (DnsAnswer.resolved addrs)).listed =
          !(addrs.filter (fun a => !decide (a ∈ ign))).isEmpty from rfl, h1]
      rfl
    · rw [show (processOracle ign (DnsAnswer.resolved addrs)).warned =
          !(addrs.filter (fun a => decide (a ∈ ign))).isEmpty from rfl, h2]

/-- Witness for C1: a response consisting only of the URIBL ignore code
127.0.0.1 is not listed and raises the warning signal. -/
theorem claim1_witness :
    (processOracle [str "127.0.0.1"] (DnsAnswer.resolved [str "127.0.0.1"])).listed = false ∧
    (processOracle [str "127.0.0.1"] (DnsAnswer.resolved [str "127.0.0.1"])).warned =
      !([str "127.0.0.1"] : List Str).isEmpty :=
  (claim1_oracle_listed_iff_real_code [str "127.0.0.1"] [str "127.0.0.1"]).2 (by decide)

/-- Claim C3: a domain yields a dead-domain finding iff its DNS resolution
fails with the ENOTFOUND error class; any other resolver error (timeout,
refusal) produces no finding for that domain. -/
theorem claim3_dead_iff_enotfound (resolveErr : Str → Option Str)
    (srcs : Str → List Str) (domains : List Str) (d : Str) :
    (∃ e ∈ checkLiveness resolveErr srcs domains, e.domain = d) ↔
      d ∈ domains ∧ resolveErr d = some (str "ENOTFOUND") := by
  constructor
  · rintro ⟨e, he, hdom⟩
    simp only [checkLiveness, List.mem_filterMap] at he
    obtain ⟨a, ha, heq⟩ := he
    rcases h : resolveErr a with _ | code
    · rw [h] at heq
      simp at heq
    · rw [h] at heq
      simp only [Option.some.injEq] at heq
      by_cases hc : code = str "ENOTFOUND"
      · rw [if_pos hc] at heq
        cases heq
        cases hdom
        exact ⟨ha, hc ▸ h⟩
      · rw [if_neg hc] at heq
        simp at heq
  · rintro ⟨hd, herr⟩
    refine ⟨⟨d, str "ENOTFOUND", srcs d⟩, ?_, rfl⟩
    simp only [checkLiveness, List.mem_filterMap]
    refine ⟨d, hd, ?_⟩
    rw [herr]
    simp

/-- Claim C10: the scannedUrlCount persisted in scan-metadata.json is the
number of unique page URLs for which a visit was attempted — the
first-occurrence deduplication of the page list — regardless of which
navigations succeed (failed pages stay counted, since a page enters the
seen set before navigation). -/
theorem claim10_scanned_count_attempted (navOk : Str → Bool)
    (scriptsOn : Str → Nat) (pages : List Str) :
    (crawlMetadata navOk scriptsOn pages).scannedUrlCount = (dedupFirst pages).length ∧
    (runCrawl navOk scriptsOn pages).seenPages = dedupFirst pages := by
  have h : (runCrawl navOk scriptsOn pages).seenPages = dedupFirst pages := by
    rw [runCrawl, dedupFirst, crawl_foldl_seenPages]
  exact ⟨by rw [crawlMetadata]; rw [h], h⟩

/-- Claim C2 (amended): the aggregated total equals dead-domain count plus
blacklist-listed count (0 or 1) plus the retire.js and ClamAV counts; the
malicious-URL (safebrowsing) verdict is not consulted and contributes
nothing; and the run label is Clean exactly when the total is zero. -/
theorem claim2_amended_total_and_label (r : Reports) :
    generateReportTotal r =
      deadDomainIssuesOf r + blacklistIssuesOf r + retireIssuesOf r + clamavIssuesOf r ∧
    blacklistIssuesOf r ≤ 1 ∧
    (∀ sb, generateReportTotal { r with safebrowsingStatus := sb } = generateReportTotal r) ∧
    (generateReportLabel r = str "Clean" ↔ generateReportTotal r = 0) := by
  refine ⟨by rw [generateReportTotal]; omega, ?_, ?_, ?_⟩
  · rcases h : r.blacklistStatus with _ | st
    · simp [blacklistIssuesOf, h]
    · by_cases hst : st = str "listed" <;> simp [blacklistIssuesOf, h, hst]
  · intro sb
    rfl
  · rw [generateReportLabel]
    by_cases h : generateReportTotal r > 0
    · rw [if_pos h]
      constructor
      · intro hlab
        exact absurd hlab (by decide)
      · omega
    · rw [if_neg h]
      constructor
      · intro _
        omega
      · intro _
        rfl

/-- Counterexample for C2: with every persisted report clean except a
safebrowsing `unsafe` verdict, the code's total is 0 and the label is
Clean, while the claimed formula (which counts the malicious-URL-listed
verdict) gives 1 and demands the label Issues Found. -/
theorem claim2_counterexample :
    generateReportTotal reportsCex = 0 ∧
    generateReportLabel reportsCex = str "Clean" ∧
    specClaimedTotal reportsCex = 1 := by decide

/-- Claim C7: for every sitemap node, a fetch or parse failure yields the
empty sequence for that node, and a sitemap index resolves to the
concatenation, in document order, of its children's resolutions — so one
failed child never aborts the others (it merely contributes `[]`). -/
theorem claim7_sitemap_partial_failure (env : Str → SitemapResult) (fuel : Nat)
    (u v : Str) (children : List Str)
    (hu : env u = SitemapResult.indexDoc children)
    (hv : env v = SitemapResult.failed) :
    parseSitemap env (fuel + 1) u = (children.map (parseSitemap env fuel)).flatten ∧
    parseSitemap env (fuel + 1) v = [] := by
  constructor
  · rw [parseSitemap, hu]
    show children.foldl (fun acc c => acc ++ parseSitemap env fuel c) [] = _
    rw [foldl_append_eq_flatten]
    rfl
  · rw [parseSitemap, hv]

/-- Witness for C7: in the concrete index whose middle child fails, the
resolver returns the concatenation of the surviving children, and the
failed node itself resolves to the empty sequence. -/
theorem claim7_witness :
    parseSitemap sitemapEnvCex 2 (str "https://s/root.xml") =
      (([str "https://s/c1.xml", str "https://s/bad.xml", str "https://s/c2.xml"]).map
        (parseSitemap sitemapEnvCex 1)).flatten ∧
    parseSitemap sitemapEnvCex 2 (str "https://s/bad.xml") = [] :=
  claim7_sitemap_partial_failure sitemapEnvCex 1
    (str "https://s/root.xml") (str "https://s/bad.xml")
    [str "https://s/c1.xml", str "https://s/bad.xml", str "https://s/c2.xml"]
    (by decide) (by decide)

/-- Claim C8: on protocol-relative inputs `//h/p`, both hostname
extractors agree with extraction from the corresponding `https://h/p`
input — the blacklist checker prepends `https:` and the dead-domain
scanner coerces identically, producing the very same parsed string. -/
theorem claim8_protocol_relative_equiv (g rest : Str) :
    extractDomain_cb g (str "//" ++ rest) = extractDomain_cb g (str "https://" ++ rest) ∧
    extractDomain_dd (str "//" ++ rest) = extractDomain_dd (str "https://" ++ rest) :=
  ⟨rfl, rfl⟩

/-- Claim C4 (amended): the dead-domain scanner's extractor yields the
Invalid result (`null`) on unparsable input and its caller `addFinding`
drops such input silently; the blacklist checker's extractor never throws
either, but on unparsable input its catch branch falls back to the raw CLI
argument (the global `input`) instead of an Invalid value. -/
theorem claim4_amended_invalid_handling :
    (∀ u s m, extractDomain_dd u = none → addFinding u s m = m) ∧
    (∀ g inp, extractDomain_cbAux inp = none → extractDomain_cb g inp = g) := by
  constructor
  · intro u s m h
    rw [addFinding, h]
  · intro g inp h
    rw [extractDomain_cb, h]
    rfl

/-- Witness for C4 (amended): the unparsable `%%` is dropped silently by
`addFinding`, and the unparsable CLI argument `http://` makes the
blacklist extractor return that raw argument. -/
theorem claim4_witness :
    addFinding (str "%%") (str "Found on Page: https://p1") [] = [] ∧
    extractDomain_cb (str "http://") (str "http://") = str "http://" :=
  ⟨claim4_amended_invalid_handling.1 (str "%%") (str "Found on Page: https://p1") [] (by decide),
   claim4_amended_invalid_handling.2 (str "http://") (str "http://") (by decide)⟩

/-- Counterexample for C4: `http://` is malformed — the URL constructor
throws, so the try body yields no hostname — yet the blacklist checker's
`extractDomain` returns the raw input string itself, a non-Invalid value
that `checkAll` then uses as the domain for every blocklist query, rather
than the distinguished Invalid result the claim requires. -/
theorem claim4_counterexample :
    extractDomain_cbAux (str "http://") = none ∧
    extractDomain_cb (str "http://") (str "http://") = str "http://" := by decide

/-- Claim C5: a candidate page is excluded from the crawl iff its URL path
starts with at least one configured skip marker and starts with no
configured include marker; in particular a page matching both lists is
kept, and with no skip markers nothing is excluded. -/
theorem claim5_skip_include_filter (pathOf : Str → Str)
    (skips incls pages : List Str) (u : Str) (hu : u ∈ pages) :
    u ∉ filterPages pathOf skips incls pages ↔
      ((∃ p ∈ skips, strStartsWith (pathOf u) p = true) ∧
       ¬(∃ q ∈ incls, strStartsWith (pathOf u) q = true)) := by
  rcases skips with _ | ⟨s0, srest⟩
  · simp [filterPages, hu]
  · rw [filterPages, if_neg (by simp)]
    have key : u ∈ pages.filter
        (fun x => !(shouldSkipPage (s0 :: srest) incls (pathOf x))) ↔
        (!(shouldSkipPage (s0 :: srest) incls (pathOf u))) = true := by
      rw [List.mem_filter]
      exact and_iff_right hu
    rw [not_congr key]
    simp [shouldSkipPage, matchesAnyOf]
    intro _h
    by_cases hs : strStartsWith (pathOf u) s0 = true <;> simp [hs]

/-- Witness for C5: a page under /admin with a configured /admin skip
marker and no include markers is excluded. -/
theorem claim5_witness :
    ((str "https://s/admin/x") ∉ filterPages (fun _ => str "/admin/x")
        [str "/admin"] [] [str "https://s/admin/x"] ↔
      ((∃ p ∈ [str "/admin"], strStartsWith (str "/admin/x") p = true) ∧
       ¬(∃ q ∈ ([] : List Str), strStartsWith (str "/admin/x") q = true))) :=
  claim5_skip_include_filter (fun _ => str "/admin/x") [str "/admin"] []
    [str "https://s/admin/x"] (str "https://s/admin/x") (by decide)

/-- Inserting into a source set leaves it nonempty. -/
theorem insertNew_ne_nil (s : Str) (l : List Str) : insertNew s l ≠ [] := by
  by_cases h : s ∈ l
  · rw [insertNew, if_pos h]
    exact List.ne_nil_of_mem h
  · rw [insertNew, if_neg h]
    simp

/-- Insertion preserves duplicate-freeness. -/
theorem insertNew_nodup (s : Str) (l : List Str) (h : l.Nodup) :
    (insertNew s l).Nodup := by
  by_cases hs : s ∈ l
  · rw [insertNew, if_pos hs]
    exact h
  · rw [insertNew, if_neg hs]
    rw [List.nodup_append]
    refine ⟨h, List.nodup_singleton s, ?_⟩
    intro x hx hx2
    simp at hx2
    subst hx2
    exact hs hx

/-- The inserted element is always a member afterwards. -/
theorem mem_insertNew_self (s : Str) (l : List Str) : s ∈ insertNew s l := by
  by_cases hs : s ∈ l
  · rw [insertNew, if_pos hs]
    exact hs
  · rw [insertNew, if_neg hs]
    simp

/-- Inserting an already-present source changes nothing. -/
theorem insertNew_mem_eq (s : Str) (l : List Str) (h : s ∈ l) : insertNew s l = l := by
  rw [insertNew, if_pos h]

/-- Inserting the same source twice equals inserting it once. -/
theorem insertNew_idem (s : Str) (l : List Str) :
    insertNew s (insertNew s l) = insertNew s l :=
  insertNew_mem_eq s (insertNew s l) (mem_insertNew_self s l)

/-- The source-update map of `addFinding` does not change which keys are
present. -/
theorem hasKey_map_update (m : DomainSources) (d : Str) (g : List Str → List Str) :
    hasKey (m.map (fun e => if e.1 = d then (e.1, g e.2) else e)) d = hasKey m d := by
  induction m with
  | nil => rfl
  | cons a t ih =>
    simp only [hasKey, List.map_cons, List.any_cons] at ih ⊢
    by_cases h : a.1 = d
    · simp [h]
    · simp only [if_neg h]
      rw [ih]

/-- `addFinding` on a present key is the source-update map. -/
theorem addFinding_some_hasKey (u s d : Str) (m : DomainSources)
    (hx : extractDomain_dd u = some d) (hd : ¬d.isEmpty = true)
    (hk : hasKey m d = true) :
    addFinding u s m = m.map (fun e => if e.1 = d then (e.1, insertNew s e.2) else e) := by
  simp [addFinding, hx, hd, hk]

/-- `addFinding` on an absent key appends a fresh singleton entry. -/
theorem addFinding_some_newKey (u s d : Str) (m : DomainSources)
    (hx : extractDomain_dd u = some d) (hd : ¬d.isEmpty = true)
    (hk : ¬hasKey m d = true) :
    addFinding u s m = m ++ [(d, [s])] := by
  simp [addFinding, hx, hd, hk]

/-- Recording the same (url, source) finding twice equals recording it
once. -/
theorem addFinding_idem (u s : Str) (m : DomainSources) :
    addFinding u s (addFinding u s m) = addFinding u s m := by
  rcases hx : extractDomain_dd u with _ | d
  · simp [addFinding, hx]
  · by_cases hd : d.isEmpty = true
    · simp [addFinding, hx, hd]
    · by_cases hk : hasKey m d = true
      · rw [addFinding_some_hasKey u s d m hx hd hk]
        rw [addFinding_some_hasKey u s d _ hx hd
          (by rw [hasKey_map_update]; exact hk)]
        rw [List.map_map]
        apply List.map_congr_left
        intro e _he
        by_cases heq : e.1 = d
        · simp only [Function.comp_apply, if_pos heq]
          simp [insertNew_idem]
        · simp only [Function.comp_apply, if_neg heq]
      · rw [addFinding_some_newKey u s d m hx hd hk]
        have hk2 : hasKey (m ++ [(d, [s])]) d = true := by simp [hasKey]
        rw [addFinding_some_hasKey u s d _ hx hd hk2]
        rw [List.map_append]
        have hmap : ∀ e ∈ m,
            (if e.1 = d then (e.1, insertNew s e.2) else e) = e := by
          intro e he
          have hne : ¬(e.1 = d) := by
            intro hcon
            apply hk
            simp only [hasKey, List.any_eq_true, decide_eq_true_eq]
            exact ⟨e, he, hcon⟩
          rw [if_neg hne]
        congr 1
        · calc m.map (fun e => if e.1 = d then (e.1, insertNew s e.2) else e)
              = m.map id := List.map_congr_left (by intro a ha; rw [hmap a ha]; rfl)
            _ = m := List.map_id m
        · simp [insertNew]

/-- Every entry produced by `addFinding` keeps a nonempty, duplicate-free
source list. -/
theorem addFinding_wf (u s : Str) (m : DomainSources)
    (h : ∀ e ∈ m, e.2 ≠ [] ∧ e.2.Nodup) :
    ∀ e ∈ addFinding u s m, e.2 ≠ [] ∧ e.2.Nodup := by
  intro e he
  rcases hx : extractDomain_dd u with _ | d
  · simp only [addFinding, hx] at he
    exact h e he
  · by_cases hd : d.isEmpty = true
    · simp only [addFinding, hx, if_pos hd] at he
      exact h e he
    · by_cases hk : hasKey m d = true
      · rw [addFinding_some_hasKey u s d m hx hd hk] at he
        obtain ⟨e0, he0, rfl⟩ := List.mem_map.mp he
        by_cases heq : e0.1 = d
        · rw [if_pos heq]
          exact ⟨insertNew_ne_nil s e0.2, insertNew_nodup s e0.2 (h e0 he0).2⟩
        · rw [if_neg heq]
          exact h e0 he0
      · rw [addFinding_some_newKey u s d m hx hd hk] at he
        rcases List.mem_append.mp he with h1 | h2
        · exact h e h1
        · simp at h2
          subst h2
          exact ⟨by simp, List.nodup_singleton s⟩

/-- Folding findings preserves the source-set invariant. -/
theorem processFindings_wf_aux :
    ∀ (fs : List (Str × Str)) (m : DomainSources),
      (∀ e ∈ m, e.2 ≠ [] ∧ e.2.Nodup) →
      ∀ e ∈ fs.foldl (fun m2 f => addFinding f.1 f.2 m2) m, e.2 ≠ [] ∧ e.2.Nodup := by
  intro fs
  induction fs with
  | nil => intro m h e he; exact h e he
  | cons f rest ih =>
    intro m h
    exact ih _ (addFinding_wf f.1 f.2 m h)

/-- Claim C6: the aggregated per-domain source collection has set
semantics — every domain entry built up by the dead-domain scanner's
`addFinding` carries each provenance string exactly once (a duplicate-free
list), re-adding an already-recorded finding changes nothing, and no
domain entry ever exists with zero sources. -/
theorem claim6_source_set_semantics :
    (∀ (findings : List (Str × Str)) (d : Str) (srcs : List Str),
       (d, srcs) ∈ processFindings findings → srcs ≠ [] ∧ srcs.Nodup) ∧
    (∀ u s m, addFinding u s (addFinding u s m) = addFinding u s m) := by
  constructor
  · intro findings d srcs hmem
    exact processFindings_wf_aux findings [] (by intro e he; simp at he) (d, srcs) hmem
  · intro u s m
    exact addFinding_idem u s m

/-- Witness for C6: the same resource URL reported from two pages, with
one provenance repeated, yields one domain entry holding both provenance
strings exactly once each. -/
theorem claim6_witness :
    [str "Found on Page: https://p1", str "Found on Page: https://p2"] ≠ [] ∧
    List.Nodup [str "Found on Page: https://p1", str "Found on Page: https://p2"] :=
  claim6_source_set_semantics.1 findingsCex (str "cdn.example.com")
    [str "Found on Page: https://p1", str "Found on Page: https://p2"] (by decide)

/-- Digit characters are never the dash separator. -/
theorem digitChar_ne_dash (n : Nat) : digitChar n ≠ '-' := by
  unfold digitChar
  split <;> decide

/-- The dash separator never occurs in a rendered number. -/
theorem dash_not_mem_natDigitsAux (fuel : Nat) :
    ∀ n : Nat, '-' ∉ natDigitsAux fuel n := by
  induction fuel with
  | zero => intro n; simp [natDigitsAux]
  | succ fuel ih =>
    intro n
    rw [natDigitsAux]
    by_cases h : n < 10
    · rw [if_pos h]
      intro hmem
      simp at hmem
      exact digitChar_ne_dash n hmem.symm
    · rw [if_neg h]
      intro hmem
      rcases List.mem_append.mp hmem with h1 | h2
      · exact ih (n / 10) h1
      · simp at h2
        exact digitChar_ne_dash (n % 10) h2.symm

/-- The dash separator never occurs in `natDigits`. -/
theorem dash_not_mem_natDigits (n : Nat) : '-' ∉ natDigits n :=
  dash_not_mem_natDigitsAux (n + 1) n

/-- Reading back a digit character below ten. -/
theorem digitVal_digitChar (d : Nat) (h : d < 10) : digitVal (digitChar d) = d := by
  interval_cases d <;> decide

/-- `undigits` over a trailing digit. -/
theorem undigits_append (l : Str) (c : Char) :
    undigits (l ++ [c]) = undigits l * 10 + digitVal c := by
  simp [undigits, List.foldl_append]

/-- With sufficient fuel, `undigits` inverts the rendering. -/
theorem undigits_natDigitsAux (fuel : Nat) :
    ∀ n : Nat, n < fuel → undigits (natDigitsAux fuel n) = n := by
  induction fuel with
  | zero => intro n h; omega
  | succ fuel ih =>
    intro n h
    rw [natDigitsAux]
    by_cases h10 : n < 10
    · rw [if_pos h10]
      simp [undigits, digitVal_digitChar n h10]
    · rw [if_neg h10, undigits_append, ih (n / 10) (by omega),
        digitVal_digitChar (n % 10) (by omega)]
      omega

/-- The decimal rendering is injective. -/
theorem natDigits_inj {a b : Nat} (h : natDigits a = natDigits b) : a = b := by
  have h2 : natDigitsAux (a + 1) a = natDigitsAux (b + 1) b := h
  calc a = undigits (natDigitsAux (a + 1) a) := (undigits_natDigitsAux (a + 1) a (by omega)).symm
    _ = undigits (natDigitsAux (b + 1) b) := congrArg undigits h2
    _ = b := undigits_natDigitsAux (b + 1) b (by omega)

/-- Splitting at a dash separator absent from both left parts is
unambiguous. -/
theorem split_dash (xs1 : Str) :
    ∀ (xs2 ys1 ys2 : Str), '-' ∉ xs1 → '-' ∉ xs2 →
      xs1 ++ '-' :: ys1 = xs2 ++ '-' :: ys2 → xs1 = xs2 ∧ ys1 = ys2 := by
  induction xs1 with
  | nil =>
    intro xs2 ys1 ys2 _h1 h2 h
    cases xs2 with
    | nil => simpa using h
    | cons b bs =>
      simp at h
      exfalso
      apply h2
      rw [← h.1]
      exact List.mem_cons_self '-' bs
  | cons a as ih =>
    intro xs2 ys1 ys2 h1 h2 h
    cases xs2 with
    | nil =>
      simp at h
      exfalso
      apply h1
      rw [h.1]
      exact List.mem_cons_self '-' as
    | cons b bs =>
      simp at h
      obtain ⟨hab, h3⟩ := h
      have hrec := ih bs ys1 ys2
        (fun hm => h1 (List.mem_cons_of_mem a hm))
        (fun hm => h2 (List.mem_cons_of_mem b hm)) h3
      exact ⟨by rw [hab, hrec.1], hrec.2⟩

/-- Claim C9 (amended): two generated destination filenames coincide
exactly when the millisecond timestamps, the random draws and the
basenames all coincide — so any difference in timestamp or draw keeps
same-basename scripts apart, but a collision of all three overwrites. -/
theorem claim9_filename_collision_iff (t1 r1 t2 r2 : Nat) (b1 b2 : Str) :
    uniqueName t1 r1 b1 = uniqueName t2 r2 b2 ↔ (t1 = t2 ∧ r1 = r2 ∧ b1 = b2) := by
  constructor
  · intro h
    rw [uniqueName, uniqueName] at h
    obtain ⟨ht, hrest⟩ :=
      split_dash (natDigits t1) (natDigits t2) _ _
        (dash_not_mem_natDigits t1) (dash_not_mem_natDigits t2) h
    obtain ⟨hr, hb⟩ :=
      split_dash (natDigits r1) (natDigits r2) b1 b2
        (dash_not_mem_natDigits r1) (dash_not_mem_natDigits r2) hrest
    exact ⟨natDigits_inj ht, natDigits_inj hr, hb⟩
  · rintro ⟨rfl, rfl, rfl⟩
    rfl

/-- Counterexample for C9: two scripts from different source URLs share
the basename app.js; the destination name depends only on timestamp,
random draw and basename, so when `Date.now()` and the random draw repeat
(same millisecond, same draw) both downloads get the identical filename —
the second overwrites the first, contradicting unconditional
distinctness. -/
theorem claim9_counterexample :
    scriptFileName (str "https://a.example/app.js") = some (str "app.js") ∧
    scriptFileName (str "https://b.example/app.js") = some (str "app.js") ∧
    str "https://a.example/app.js" ≠ str "https://b.example/app.js" ∧
    uniqueName 1700 5 (str "app.js") = uniqueName 1700 5 (str "app.js") := by
  refine ⟨by decide, by decide, by decide, rfl⟩
